import Mathlib

/-!
Verification of the Datacamp `Names/download.ipynb` notebook.

The notebook has two pipelines:
* a name-counts pipeline: download `names.zip`, extract to `data-us`, read every
  `*txt` member as a (name, sex, births) CSV, tag rows with the year taken from
  `int(file.name[3:7])`, concatenate, write `names.csv.gz` (gzip, no index),
  then delete `names.zip` and `data-us`;
* a life-table pipeline: `scrape_lifetable` / `parse_lifetable` /
  `get_lifetable` / `get_lifetables`, writing `lifetables.csv`.

The embedding below models the pure data transformations of both pipelines,
the filesystem effects of the cleanup cell, and the notebook's global
namespace (the life-table cell references names that are never imported).
-/

namespace Datacamp

/-! ## Python string and number primitives -/

/-- Python slicing `s[a:b]` on a string (non-negative bounds, clamped). -/
def pySlice (s : String) (a b : Nat) : String :=
  String.mk ((s.toList.drop a).take (b - a))

/-- Split a character list at every occurrence of a separator character. -/
def splitOnC (sep : Char) : List Char → List (List Char)
  | [] => [[]]
  | c :: cs =>
    let r := splitOnC sep cs
    if c = sep then [] :: r
    else
      match r with
      | [] => [[c]]
      | h :: t => (c :: h) :: t

/-- Split a string at every occurrence of a separator character. -/
def pySplit (sep : Char) (s : String) : List String :=
  (splitOnC sep s.toList).map String.mk

/-- The whitespace characters stripped by Python's `int` and `float`. -/
def isPySpace (c : Char) : Bool :=
  c = ' ' ∨ c = '\t' ∨ c = '\n' ∨ c = '\r' ∨ c = '\x0b' ∨ c = '\x0c'

/-- Python `s.strip()`: drop whitespace from both ends. -/
def pyStrip (s : String) : String :=
  String.mk (((s.toList.dropWhile isPySpace).reverse.dropWhile isPySpace).reverse)

/-- Python `s.endswith(suffix)`. -/
def strEndsWith (s suffix : String) : Bool :=
  suffix.toList.isSuffixOf s.toList

/-- Numeric value of a list of decimal digit characters. -/
def digitsVal (ds : List Char) : Nat :=
  ds.foldl (fun a c => 10 * a + (c.toNat - 48)) 0

/-- A non-empty all-digit string of characters, as a natural number. -/
def parseUNat (cs : List Char) : Option Nat :=
  if cs ≠ [] ∧ cs.all Char.isDigit then some (digitsVal cs) else none

/-- Signed decimal integer literal over a list of characters. -/
def parseSignedInt (cs : List Char) : Option Int :=
  match cs with
  | '+' :: r => (parseUNat r).map Int.ofNat
  | '-' :: r => (parseUNat r).map (fun n => -(Int.ofNat n))
  | r => (parseUNat r).map Int.ofNat

/-- Python `int(s)`: surrounding whitespace stripped, optional sign, digits. -/
def pyInt (s : String) : Option Int :=
  parseSignedInt (pyStrip s).toList

/-- Leading run of digit characters, and the rest. -/
def spanDigits : List Char → List Char × List Char
  | [] => ([], [])
  | c :: cs =>
    if c.isDigit then
      let p := spanDigits cs
      (c :: p.1, p.2)
    else ([], c :: cs)

/-- An exact decimal value `num / den`, as parsed by `float`. Kept
unnormalized so that equality is plain structural equality. -/
structure PyFloat where
  num : Int
  den : Nat
  deriving DecidableEq, Repr

/-- The value `mant * 10^ex` as an exact fraction. -/
def decValue (mant : Nat) (ex : Int) : PyFloat :=
  if 0 ≤ ex then ⟨(mant : Int) * (10 : Int) ^ ex.toNat, 1⟩
  else ⟨(mant : Int), (10 : Nat) ^ ex.natAbs⟩

/-- The optional exponent part of a float literal (`e±ddd` or nothing). -/
def parseExpPart : List Char → Option Int
  | [] => some 0
  | 'e' :: cs => parseSignedInt cs
  | 'E' :: cs => parseSignedInt cs
  | _ => none

/-- Unsigned float literal: `ddd`, `ddd.`, `.ddd` or `ddd.ddd`, then optional
exponent. Returns its exact value as a fraction. -/
def parseUFloat (cs : List Char) : Option PyFloat :=
  let p1 := spanDigits cs
  let p2 :=
    match p1.2 with
    | '.' :: r => spanDigits r
    | r => ([], r)
  if p1.1 = [] ∧ p2.1 = [] then none
  else
    match parseExpPart p2.2 with
    | none => none
    | some e => some (decValue (digitsVal (p1.1 ++ p2.1)) (e - p2.1.length))

/-- Python `float(s)`: strip whitespace, optional sign, decimal literal with
optional fraction and exponent. The exact value is kept as a fraction. -/
def pyFloat (s : String) : Option PyFloat :=
  match (pyStrip s).toList with
  | '+' :: r => parseUFloat r
  | '-' :: r => (parseUFloat r).map (fun q => ⟨-q.num, q.den⟩)
  | r => parseUFloat r

/-- Remove every occurrence of the given characters (`re.sub('c1|c2', '', s)`
for single-character alternatives). -/
def removeChars (bad : List Char) (s : String) : String :=
  String.mk (s.toList.filter (fun c => ¬ bad.contains c))

/-- Error-propagating map, the effect of a Python list comprehension whose
body can raise: the first raising element aborts the whole computation. -/
def mapE {α β : Type} (f : α → Except String β) : List α → Except String (List β)
  | [] => .ok []
  | a :: l => do
    let b ← f a
    let bs ← mapE f l
    .ok (b :: bs)

/-! ## Name-counts pipeline -/

/-- One extracted member of `names.zip`: a file name and its text content. -/
structure NameFile where
  name : String
  content : String
  deriving DecidableEq, Repr

/-- A cell of the names frame: pandas type inference turns an all-integer
column into integers and keeps anything else as text. -/
inductive NameCell where
  | int (z : Int)
  | str (s : String)
  deriving DecidableEq, Repr

/-- One row of the combined babynames frame (`year` is always an `int`,
assigned from the filename). -/
structure NameRow where
  name : NameCell
  sex : NameCell
  births : NameCell
  year : Int
  deriving DecidableEq, Repr

/-- The data lines of a CSV text: split on newlines, blank lines skipped. -/
def csvLines (content : String) : List String :=
  (pySplit '\n' content).filter (fun l => l ≠ "")

/-- Integer literal as pandas' column type inference sees a field:
optional sign and digits, no surrounding whitespace. -/
def intLit? (s : String) : Option Int :=
  parseSignedInt s.toList

/-- pandas column type inference: an all-integer column becomes integers,
any other column stays text. -/
def inferColumn (vals : List String) : List NameCell :=
  if vals.all (fun v => (intLit? v).isSome) then
    vals.map (fun v => NameCell.int ((intLit? v).getD 0))
  else
    vals.map NameCell.str

/-- `pd.read_csv(file, names=['name','sex','births'])`: every line must have
exactly three comma-separated fields; column types are inferred per column. -/
def read_csv3 (content : String) : Except String (List (NameCell × NameCell × NameCell)) := do
  let fields ← mapE (fun l =>
    match pySplit ',' l with
    | [a, b, c] => .ok (a, b, c)
    | _ => .error "ParserError: unexpected number of fields") (csvLines content)
  let names := inferColumn (fields.map (fun t => t.1))
  let sexes := inferColumn (fields.map (fun t => t.2.1))
  let births := inferColumn (fields.map (fun t => t.2.2))
  .ok (names.zip (sexes.zip births))

/-- Read one yearly file and tag every row with `int(file.name[3:7])`:
the body of the `for file in Path('data-us').iterdir()` loop. -/
def readTagged (f : NameFile) : Except String (List NameRow) := do
  let triples ← read_csv3 f.content
  match pyInt (pySlice f.name 3 7) with
  | none => .error "ValueError: invalid literal for int() with base 10"
  | some y => .ok (triples.map fun t => ⟨t.1, t.2.1, t.2.2, y⟩)

/-- The whole loop: one frame per file whose name ends in `txt`, in
iteration order; any failure aborts the run. -/
def processFiles : List NameFile → Except String (List (List NameRow))
  | [] => .ok []
  | f :: fs =>
    if strEndsWith f.name "txt" then do
      let rows ← readTagged f
      let rest ← processFiles fs
      .ok (rows :: rest)
    else processFiles fs

/-- Render one cell back to CSV text, as `to_csv` does. -/
def renderCell : NameCell → String
  | .int z => toString z
  | .str s => s

/-- Render one combined row as a CSV line (columns name, sex, births, year). -/
def renderRow (r : NameRow) : String :=
  renderCell r.name ++ "," ++ renderCell r.sex ++ "," ++ renderCell r.births
    ++ "," ++ toString r.year

/-- A written CSV artifact: its text lines and its compression setting. -/
structure CsvOut where
  lines : List String
  compression : String
  deriving DecidableEq, Repr

/-- `babynames.to_csv('names.csv.gz', index=False, compression='gzip')`:
header line then one line per row, no index column, gzip compression. -/
def to_csv_names (rows : List NameRow) : CsvOut :=
  ⟨"name,sex,births,year" :: rows.map renderRow, "gzip"⟩

/-- The full name-counts pipeline on a list of extracted files: per-file
frames, `pd.concat` (which rejects an empty list of frames), `to_csv`. -/
def namesPipeline (files : List NameFile) : Except String CsvOut := do
  let frames ← processFiles files
  if frames.isEmpty then .error "ValueError: No objects to concatenate"
  else .ok (to_csv_names frames.flatten)

/-! ## Life-table pipeline

`scrape_lifetable` returns a grid of text cells (a list of rows of strings);
`parse_lifetable` turns one grid into a frame. Cells are either parsed
floating-point numbers (kept exact as rationals), assigned text tags (`sex`)
or assigned integers (`year`); a missing cell is `none` (pandas `NaN`). -/

/-- A value held in a life-table frame cell. -/
inductive Val where
  | num (q : PyFloat)
  | str (s : String)
  | int (z : Int)
  deriving DecidableEq, Repr

/-- A pandas data frame: column names and rows of optional values
(`none` is `NaN`). -/
structure Frame where
  cols : List String
  rows : List (List (Option Val))
  deriving DecidableEq, Repr

/-- The non-breaking-space placeholder `u"\xa0"` used by the SSA tables for
a missing cell. -/
def nbsp : String := "\u00A0"

/-- `re.sub('\n|,', '', x)`: strip newlines and thousands-separator commas
from a data cell before parsing. -/
def cleanCell (x : String) : String :=
  removeChars ['\n', ','] x

/-- `re.sub('\n|\s', '', x)`: strip all whitespace from a header cell
(`\s` also matches the non-breaking space). -/
def stripHdr (x : String) : String :=
  String.mk (x.toList.filter (fun c => ¬ (isPySpace c ∨ c = '\u00A0' ∨ c = '\u0085')))

/-- `float(re.sub('\n|,', '', x)) if x != u"\xa0" else None`: the
non-breaking-space placeholder becomes a null; anything else must parse as a
float or the whole run fails. -/
def parseCellLT (x : String) : Except String (Option Val) :=
  if x = nbsp then .ok none
  else
    match pyFloat (cleanCell x) with
    | some q => .ok (some (.num q))
    | none => .error "ValueError: could not convert string to float"

/-- `pd.DataFrame` row width rule: a row longer than the column list is an
error, a shorter row is padded with nulls. -/
def padRow (w : Nat) (r : List (Option Val)) : Except String (List (Option Val)) :=
  if w < r.length then .error "ValueError: fewer columns passed than data columns"
  else .ok (r ++ List.replicate (w - r.length) none)

/-- `lifetable[1]`: the header row, an `IndexError` when the grid is too
short. -/
def headerOf (lifetable : List (List String)) : Except String (List String) :=
  match lifetable.get? 1 with
  | none => .error "IndexError: list index out of range"
  | some hdr => .ok hdr

/-- The `pd.DataFrame(...)` call of `parse_lifetable`: data cells from grid
rows 4 onward (parsed first, as Python evaluates the data argument first),
column names from grid row 1 with whitespace stripped. -/
def buildDF (lifetable : List (List String)) : Except String Frame := do
  let rawRows ← mapE (fun r => mapE parseCellLT r) (lifetable.drop 4)
  let hdr ← headerOf lifetable
  let rows ← mapE (padRow (hdr.map stripHdr).length) rawRows
  .ok ⟨hdr.map stripHdr, rows⟩

/-- Set every column named `c` to the constant value `v`, preserving row
shape; if no column has that name, append a new column (pandas `assign`). -/
def setCells (c : String) (v : Option Val) : List String → List (Option Val) → List (Option Val)
  | _, [] => []
  | [], r => r
  | c' :: cs, x :: r => (if c' = c then v else x) :: setCells c v cs r

/-- pandas `df.assign(c = v)` with a constant: overwrite the column if it
exists, otherwise append it. -/
def setCol (c : String) (v : Option Val) (fr : Frame) : Frame :=
  if fr.cols.contains c then
    ⟨fr.cols, fr.rows.map (setCells c v fr.cols)⟩
  else
    ⟨fr.cols ++ [c], fr.rows.map (fun r => r ++ [v])⟩

/-- `df.iloc[:, :7].assign(sex = 'M')`: the male sub-table. -/
def dfMale (df : Frame) : Frame :=
  setCol "sex" (some (.str "M")) ⟨df.cols.take 7, df.rows.map (fun r => r.take 7)⟩

/-- `df.iloc[:, 8:].assign(sex = 'F')`: the female sub-table (column 7 is
the structural separator, discarded). -/
def dfFemale (df : Frame) : Frame :=
  setCol "sex" (some (.str "F")) ⟨df.cols.drop 8, df.rows.map (fun r => r.drop 8)⟩

/-- Align one row to a target column list by column name (first matching
source column; `none` where the source has no such column). -/
def reindexRow (src tgt : List String) (r : List (Option Val)) : List (Option Val) :=
  tgt.map (fun c =>
    match src.indexOf? c with
    | some i => r.getD i none
    | none => none)

/-- `pd.concat([a, b])`: identical column lists are appended positionally;
otherwise columns are aligned by name on the ordered union. -/
def concatFrames (a b : Frame) : Frame :=
  if a.cols = b.cols then ⟨a.cols, a.rows ++ b.rows⟩
  else
    let cols := a.cols ++ b.cols.filter (fun c => ¬ a.cols.contains c)
    ⟨cols, a.rows.map (reindexRow a.cols cols) ++ b.rows.map (reindexRow b.cols cols)⟩

/-- `df.rename(columns = ...)` for a single name: every column called `old`
becomes `new`; cells are untouched. -/
def renameCol (old new : String) (fr : Frame) : Frame :=
  ⟨fr.cols.map (fun c => if c = old then new else c), fr.rows⟩

/-- `df.dropna()`: keep exactly the rows with no null cell. -/
def dropna (fr : Frame) : Frame :=
  ⟨fr.cols, fr.rows.filter (fun r => r.all Option.isSome)⟩

/-- `parse_lifetable(lifetable, year)`: build the frame, split into male and
female halves, concatenate, rename `x` to `age`, tag with the year, drop
rows with any null. -/
def parse_lifetable (lifetable : List (List String)) (year : Int) :
    Except String Frame := do
  let df ← buildDF lifetable
  let c := renameCol "x" "age" (concatFrames (dfMale df) (dfFemale df))
  .ok (dropna (setCol "year" (some (.int year)) c))

/-- `range(1900, 2100, 10)`: the decade stride of `get_lifetables`. -/
def strideYears : List Int :=
  (List.range 20).map (fun i => 1900 + 10 * (i : Int))

/-- `pd.concat` over a list of frames: rejects an empty list, otherwise
folds the pairwise concatenation in order. -/
def concatAll : List Frame → Except String Frame
  | [] => .error "ValueError: No objects to concatenate"
  | f :: fs => .ok (fs.foldl concatFrames f)

/-- `get_lifetables()`: one parsed table per stride year (the scraped grid
for a year is abstracted as `fetch`), concatenated in stride order, then the
blank-named column is renamed to `ex`. -/
def get_lifetables (fetch : Int → List (List String)) : Except String Frame := do
  let frames ← mapE (fun y => parse_lifetable (fetch y) y) strideYears
  let lt ← concatAll frames
  .ok (renameCol "" "ex" lt)

/-! ## Filesystem effects of the cleanup cell -/

/-- A flat filesystem: entries of path and content. A directory is an entry
of its own; files inside it have paths prefixed by `dir ++ "/"`. -/
abbrev FS : Type := List (String × String)

/-- `os.remove(p)`: delete the entry at `p`, an error if it is absent. -/
def osRemove (p : String) (fs : FS) : Except String FS :=
  if (List.filter (fun e => e.1 = p) fs).isEmpty then
    .error "FileNotFoundError"
  else .ok (List.filter (fun e => e.1 ≠ p) fs)

/-- Whether a path lies inside the directory `d` (or is `d` itself). -/
def inDir (d p : String) : Bool :=
  p = d ∨ (d ++ "/").toList.isPrefixOf p.toList

/-- `shutil.rmtree(d)`: delete the directory entry and everything under it,
an error if the directory is absent. -/
def rmtree (d : String) (fs : FS) : Except String FS :=
  if (List.filter (fun e => e.1 = d) fs).isEmpty then
    .error "FileNotFoundError"
  else .ok (List.filter (fun e => ¬ inDir d e.1) fs)

/-- The cleanup cell: `os.remove('names.zip')` then `shutil.rmtree('data-us')`. -/
def cleanupCell (fs : FS) : Except String FS := do
  let fs1 ← osRemove "names.zip" fs
  rmtree "data-us" fs1

/-! ## The notebook's global namespace

The import cell brings in exactly `np`, `pd`, `quantile`, `plt`, `px`, `os`,
`Path`, `shutil`, `wget` and `ZipFile`; the other cells bind the listed
top-level names. `re`, `requests`, `BeautifulSoup` and `Extractor` are
referenced by the life-table cell but never imported or defined. -/

/-- Names bound by the import cell, read off its `import`/`from` lines. -/
def importedNames : List String :=
  ["np", "pd", "quantile", "plt", "px", "os", "Path", "shutil", "wget", "ZipFile"]

/-- Top-level names assigned or defined by the other cells. -/
def assignedNames : List String :=
  ["babynames", "file", "df", "zip_names",
   "parse_lifetable", "scrape_lifetable", "get_lifetable", "get_lifetables",
   "lifetables"]

/-- The Python builtins the notebook's code touches. -/
def builtinNames : List String :=
  ["int", "float", "range", "enumerate", "None"]

/-- Whether a global name lookup in the notebook succeeds. -/
def resolves (n : String) : Bool :=
  builtinNames.contains n ∨ importedNames.contains n ∨ assignedNames.contains n

/-- A modelled Python fault. -/
inductive PyErr where
  | nameError (n : String)
  deriving DecidableEq, Repr

/-- Global names looked up by `scrape_lifetable`'s body, in evaluation
order: `requests.get(...)`, then `BeautifulSoup(...)`, then `Extractor(...)`. -/
def scrapeGlobalRefs : List String :=
  ["requests", "BeautifulSoup", "Extractor"]

/-- Evaluating `get_lifetables()`: its first action is
`parse_lifetable(scrape_lifetable(1900), 1900)` via `get_lifetable`, and
`scrape_lifetable` starts by looking up its global names; the first
unresolvable one raises `NameError` before any network or parsing work. -/
def runGetLifetables : Except PyErr Unit :=
  match scrapeGlobalRefs.find? (fun n => ¬ resolves n) with
  | some n => .error (.nameError n)
  | none => .ok ()

/-- Files written by the `lifetables = get_lifetables()` cell followed by
`lifetables.to_csv('lifetables.csv', index=False)`: nothing is written when
the call raises. -/
def lifetableRunWrites : List String :=
  match runGetLifetables with
  | .ok _ => ["lifetables.csv"]
  | .error _ => []

/-! ## Frame invariants -/

/-- A frame is rectangular: every row has exactly one cell per column. -/
def Frame.Rect (fr : Frame) : Prop :=
  ∀ r ∈ fr.rows, r.length = fr.cols.length

/-- Every cell of the frame satisfies `P`. -/
def Frame.CellsP (P : Option Val → Prop) (fr : Frame) : Prop :=
  ∀ r ∈ fr.rows, ∀ c ∈ r, P c

/-- A cell carries an integer only from the given list of years (data cells
are floats, `sex` is text, nulls carry nothing). -/
def YearsOnly (ys : List Int) (c : Option Val) : Prop :=
  ∀ z : Int, c = some (.int z) → z ∈ ys

/-! ## Concrete sample data for the life-table pipeline

A synthetic grid with the layout of the SSA pages: a title row, the header
at row 1, two spacer rows, data from row 4 on; 15 columns, the male half in
columns 0 to 6, a non-breaking-space separator at column 7, the female half
from column 8. -/

/-- The header row of the sample grid. -/
def hdrRowG : List String :=
  ["x", "q(x)", "l(x)", "d(x)", "L(x)", "T(x)", "",
   "\u00A0", "x", "q(x)", "l(x)", "d(x)", "L(x)", "T(x)", ""]

/-- The single data row of the sample grid. -/
def dataRowG : List String :=
  ["0", "0.1", "100,000", "10", "95", "5000", "50",
   "\u00A0", "0", "0.08", "100", "8", "96", "5100", "51"]

/-- The sample grid. -/
def gridGood : List (List String) :=
  [["Table 7"], hdrRowG, [""], [""], dataRowG]

/-- A data row with one unparseable cell. -/
def badRowG : List String :=
  ["0", "oops", "100,000", "10", "95", "5000", "50",
   "\u00A0", "0", "0.08", "100", "8", "96", "5100", "51"]

/-- A sample grid with one unparseable data cell. -/
def gridBad : List (List String) :=
  [["Table 7"], hdrRowG, [""], [""], badRowG]

/-- The male output row of the sample grid, tagged with a year. -/
def mRowG (y : Int) : List (Option Val) :=
  [some (.num ⟨0, 1⟩), some (.num ⟨1, 10⟩), some (.num ⟨100000, 1⟩),
   some (.num ⟨10, 1⟩), some (.num ⟨95, 1⟩), some (.num ⟨5000, 1⟩),
   some (.num ⟨50, 1⟩), some (.str "M"), some (.int y)]

/-- The female output row of the sample grid, tagged with a year. -/
def fRowG (y : Int) : List (Option Val) :=
  [some (.num ⟨0, 1⟩), some (.num ⟨8, 100⟩), some (.num ⟨100, 1⟩),
   some (.num ⟨8, 1⟩), some (.num ⟨96, 1⟩), some (.num ⟨5100, 1⟩),
   some (.num ⟨51, 1⟩), some (.str "F"), some (.int y)]

/-- `parse_lifetable gridGood y`, written out. -/
def frGood (y : Int) : Frame :=
  ⟨["age", "q(x)", "l(x)", "d(x)", "L(x)", "T(x)", "", "sex", "year"],
   [mRowG y, fRowG y]⟩

/-- `buildDF gridGood`, written out. -/
def dfGood : Frame :=
  ⟨["x", "q(x)", "l(x)", "d(x)", "L(x)", "T(x)", "", "",
    "x", "q(x)", "l(x)", "d(x)", "L(x)", "T(x)", ""],
   [[some (.num ⟨0, 1⟩), some (.num ⟨1, 10⟩), some (.num ⟨100000, 1⟩),
     some (.num ⟨10, 1⟩), some (.num ⟨95, 1⟩), some (.num ⟨5000, 1⟩),
     some (.num ⟨50, 1⟩), none,
     some (.num ⟨0, 1⟩), some (.num ⟨8, 100⟩), some (.num ⟨100, 1⟩),
     some (.num ⟨8, 1⟩), some (.num ⟨96, 1⟩), some (.num ⟨5100, 1⟩),
     some (.num ⟨51, 1⟩)]]⟩

/-- `get_lifetables (fun _ => gridGood)`, written out. -/
def ltGood : Frame :=
  ⟨["age", "q(x)", "l(x)", "d(x)", "L(x)", "T(x)", "ex", "sex", "year"],
   (strideYears.map (fun y => [mRowG y, fRowG y])).flatten⟩

/-! ## Generic decidability helper -/

instance {ε α : Type} [DecidableEq ε] [DecidableEq α] : DecidableEq (Except ε α) := fun x y =>
  match x, y with
  | .ok v, .ok w => if h : v = w then .isTrue (by rw [h]) else .isFalse (by simp [h])
  | .error v, .error w => if h : v = w then .isTrue (by rw [h]) else .isFalse (by simp [h])
  | .ok _, .error _ => .isFalse (by simp)
  | .error _, .ok _ => .isFalse (by simp)

/-! ## Basic lemmas about the error monad and `mapE` -/

@[simp]
theorem okBind {ε α β : Type} (a : α) (f : α → Except ε β) :
    (Except.ok a >>= f) = f a := rfl

@[simp]
theorem errBind {ε α β : Type} (e : ε) (f : α → Except ε β) :
    ((Except.error e : Except ε α) >>= f) = Except.error e := rfl

theorem mapE_ok_length {α β : Type} (f : α → Except String β) (l : List α)
    (out : List β) (h : mapE f l = .ok out) : out.length = l.length := by
  induction l generalizing out with
  | nil => simp [mapE] at h; simp [← h]
  | cons a l ih =>
    rw [mapE] at h
    cases hfa : f a with
    | error e => rw [hfa] at h; simp at h
    | ok b =>
      rw [hfa] at h
      cases hl : mapE f l with
      | error e => rw [hl] at h; simp at h
      | ok bs =>
        rw [hl] at h
        simp at h
        simp [← h, ih bs hl]

theorem mapE_error_of_mem {α β : Type} (f : α → Except String β) (l : List α)
    (a : α) (e : String) (ha : a ∈ l) (he : f a = .error e) :
    ∃ e', mapE f l = .error e' := by
  induction l with
  | nil => cases ha
  | cons b l ih =>
    rw [mapE]
    rcases List.mem_cons.mp ha with rfl | hmem
    · rw [he]; exact ⟨e, rfl⟩
    · cases hfb : f b with
      | error e' => exact ⟨e', rfl⟩
      | ok v =>
        rcases ih hmem with ⟨e', h'⟩
        rw [h']
        exact ⟨e', rfl⟩

/-! ## Lemmas about the name-counts loop -/

theorem read_csv3_length (content : String)
    (triples : List (NameCell × NameCell × NameCell))
    (h : read_csv3 content = .ok triples) :
    triples.length = (csvLines content).length := by
  rw [read_csv3] at h
  cases hf : mapE (fun l =>
    match pySplit ',' l with
    | [a, b, c] => .ok (a, b, c)
    | _ => .error "ParserError: unexpected number of fields") (csvLines content) with
  | error e => rw [hf] at h; simp at h
  | ok fields =>
    rw [hf] at h
    simp at h
    have hlen := mapE_ok_length _ _ _ hf
    have h1 : (inferColumn (fields.map (fun t => t.1))).length = fields.length := by
      rw [inferColumn]; split <;> simp
    have h2 : (inferColumn (fields.map (fun t => t.2.1))).length = fields.length := by
      rw [inferColumn]; split <;> simp
    have h3 : (inferColumn (fields.map (fun t => t.2.2))).length = fields.length := by
      rw [inferColumn]; split <;> simp
    rw [← h]
    simp [List.length_zip, h1, h2, h3, hlen]

theorem readTagged_length (f : NameFile) (rows : List NameRow)
    (h : readTagged f = .ok rows) :
    rows.length = (csvLines f.content).length := by
  rw [readTagged] at h
  cases hc : read_csv3 f.content with
  | error e => rw [hc] at h; simp at h
  | ok triples =>
    rw [hc] at h
    cases hy : pyInt (pySlice f.name 3 7) with
    | none => rw [hy] at h; simp at h
    | some y =>
      rw [hy] at h
      simp at h
      rw [← h]
      simp [read_csv3_length f.content triples hc]

theorem readTagged_year (f : NameFile) (rows : List NameRow) (y : Int)
    (hy : pyInt (pySlice f.name 3 7) = some y)
    (h : readTagged f = .ok rows) :
    ∀ r ∈ rows, r.year = y := by
  rw [readTagged] at h
  cases hc : read_csv3 f.content with
  | error e => rw [hc] at h; simp at h
  | ok triples =>
    rw [hc] at h
    rw [hy] at h
    simp at h
    intro r hr
    rw [← h] at hr
    rcases List.mem_map.mp hr with ⟨t, _, rfl⟩
    rfl

theorem readTagged_error_of_badYear (f : NameFile)
    (hy : pyInt (pySlice f.name 3 7) = none) :
    ∃ e, readTagged f = .error e := by
  rw [readTagged]
  cases hc : read_csv3 f.content with
  | error e => exact ⟨e, rfl⟩
  | ok triples =>
    rw [hy]
    exact ⟨"ValueError: invalid literal for int() with base 10", rfl⟩

theorem processFiles_mem (files : List NameFile) (frames : List (List NameRow))
    (f : NameFile) (rows : List NameRow)
    (h : processFiles files = .ok frames) (hf : f ∈ files)
    (ht : strEndsWith f.name "txt" = true)
    (hr : readTagged f = .ok rows) : rows ∈ frames := by
  induction files generalizing frames with
  | nil => cases hf
  | cons g fs ih =>
    rw [processFiles] at h
    rcases List.mem_cons.mp hf with rfl | hmem
    · rw [if_pos ht, hr] at h
      cases hrest : processFiles fs with
      | error e => rw [hrest] at h; simp at h
      | ok rest =>
        rw [hrest] at h
        simp at h
        rw [← h]
        exact List.mem_cons_self _ _
    · by_cases hg : strEndsWith g.name "txt" = true
      · rw [if_pos hg] at h
        cases hrg : readTagged g with
        | error e => rw [hrg] at h; simp at h
        | ok rowsg =>
          rw [hrg] at h
          cases hrest : processFiles fs with
          | error e => rw [hrest] at h; simp at h
          | ok rest =>
            rw [hrest] at h
            simp at h
            rw [← h]
            exact List.mem_cons_of_mem _ (ih rest hrest hmem)
      · rw [if_neg hg] at h
        exact ih frames h hmem

theorem processFiles_error_of_mem (files : List NameFile) (f : NameFile)
    (e : String) (hf : f ∈ files) (ht : strEndsWith f.name "txt" = true)
    (he : readTagged f = .error e) :
    ∃ e', processFiles files = .error e' := by
  induction files with
  | nil => cases hf
  | cons g fs ih =>
    rw [processFiles]
    rcases List.mem_cons.mp hf with rfl | hmem
    · rw [if_pos ht, he]
      exact ⟨e, rfl⟩
    · by_cases hg : strEndsWith g.name "txt" = true
      · rw [if_pos hg]
        cases hrg : readTagged g with
        | error e' => exact ⟨e', rfl⟩
        | ok rowsg =>
          rcases ih hmem with ⟨e', h'⟩
          rw [h']
          exact ⟨e', rfl⟩
      · rw [if_neg hg]
        exact ih hmem

theorem processFiles_flatten_length (files : List NameFile)
    (frames : List (List NameRow)) (h : processFiles files = .ok frames) :
    frames.flatten.length =
      ((files.filter (fun f => strEndsWith f.name "txt")).map
        (fun f => (csvLines f.content).length)).sum := by
  induction files generalizing frames with
  | nil =>
    rw [processFiles] at h
    simp at h
    subst h
    simp
  | cons g fs ih =>
    rw [processFiles] at h
    by_cases hg : strEndsWith g.name "txt" = true
    · rw [if_pos hg] at h
      cases hrg : readTagged g with
      | error e => rw [hrg] at h; simp at h
      | ok rowsg =>
        rw [hrg] at h
        cases hrest : processFiles fs with
        | error e => rw [hrest] at h; simp at h
        | ok rest =>
          rw [hrest] at h
          simp at h
          rw [← h]
          simp [List.filter_cons, hg, ih rest hrest,
            readTagged_length g rowsg hrg]
    · rw [if_neg hg] at h
      have := ih frames h
      simp [List.filter_cons, hg, this]

/-! ## The claims -/

/-- Claim C1: for every extracted file whose name ends in `txt` and parses
successfully, every row of the combined name-counts dataset that originates
from that file (the rows `readTagged` produces for it) has its `year` column
equal to the integer parsed from characters 3 to 7 of that file's name, and
those rows all appear in the combined dataset. -/
theorem names_year_from_filename
    (files : List NameFile) (frames : List (List NameRow))
    (f : NameFile) (rows : List NameRow) (y : Int)
    (hf : f ∈ files) (ht : strEndsWith f.name "txt" = true)
    (hy : pyInt (pySlice f.name 3 7) = some y)
    (hproc : processFiles files = .ok frames)
    (hrows : readTagged f = .ok rows) :
    (∀ r ∈ rows, r.year = y) ∧ ∀ r ∈ rows, r ∈ frames.flatten := by
  refine ⟨readTagged_year f rows y hy hrows, fun r hr => ?_⟩
  exact List.mem_flatten.mpr
    ⟨rows, processFiles_mem files frames f rows hproc hf ht hrows, hr⟩

/-- Witness for C1 at a concrete input: the single file `yob1999.txt` with
one row yields a combined row whose year is 1999. -/
theorem names_year_from_filename_witness :
    (⟨NameCell.str "Ann", NameCell.str "F", NameCell.int 5, 1999⟩ : NameRow).year = 1999
    ∧ (⟨NameCell.str "Ann", NameCell.str "F", NameCell.int 5, 1999⟩ : NameRow)
        ∈ [[(⟨NameCell.str "Ann", NameCell.str "F", NameCell.int 5, 1999⟩ : NameRow)]].flatten := by
  have h := names_year_from_filename
    [⟨"yob1999.txt", "Ann,F,5"⟩]
    [[⟨NameCell.str "Ann", NameCell.str "F", NameCell.int 5, 1999⟩]]
    ⟨"yob1999.txt", "Ann,F,5"⟩
    [⟨NameCell.str "Ann", NameCell.str "F", NameCell.int 5, 1999⟩]
    1999
    (by decide) (by decide) (by decide) (by decide) (by decide)
  exact ⟨h.1 _ (by decide), h.2 _ (by decide)⟩

/-- Claim C2: the row count of the combined name-counts dataset equals the
sum of the row counts of the per-year `txt` input files: the concatenation
adds no rows and drops none, and the written CSV has exactly one header line
on top of them. -/
theorem names_rowcount_sum (files : List NameFile)
    (frames : List (List NameRow)) (out : CsvOut)
    (hproc : processFiles files = .ok frames) :
    frames.flatten.length =
      ((files.filter (fun f => strEndsWith f.name "txt")).map
        (fun f => (csvLines f.content).length)).sum
    ∧ (namesPipeline files = .ok out →
        out.lines.length = 1 + frames.flatten.length) := by
  refine ⟨processFiles_flatten_length files frames hproc, fun hout => ?_⟩
  rw [namesPipeline, hproc] at hout
  simp at hout
  by_cases hemp : frames = []
  · rw [if_pos hemp] at hout; simp at hout
  · rw [if_neg hemp] at hout
    simp at hout
    rw [← hout]
    simp [to_csv_names, List.length_map, Nat.add_comm, Function.comp_def]

/-- Witness for C2 at a concrete input: two one-row files give a combined
dataset of two rows and a written file of three lines. -/
theorem names_rowcount_sum_witness :
    ([[(⟨NameCell.str "Mary", NameCell.str "F", NameCell.int 100, 2000⟩ : NameRow)],
      [⟨NameCell.str "John", NameCell.str "M", NameCell.int 50, 2001⟩]].flatten).length = 2 := by
  have h := names_rowcount_sum
    [⟨"yob2000.txt", "Mary,F,100"⟩, ⟨"yob2001.txt", "John,M,50"⟩]
    [[⟨NameCell.str "Mary", NameCell.str "F", NameCell.int 100, 2000⟩],
     [⟨NameCell.str "John", NameCell.str "M", NameCell.int 50, 2001⟩]]
    ⟨["name,sex,births,year", "Mary,F,100,2000", "John,M,50,2001"], "gzip"⟩
    (by decide)
  rw [h.1]
  decide

/-- Claim C5: an extracted `txt` file whose characters 3 to 7 do not form a
numeric string makes the whole name-counts run fail with an error: no output
is produced. -/
theorem names_badFilename_fails (files : List NameFile) (f : NameFile)
    (hf : f ∈ files) (ht : strEndsWith f.name "txt" = true)
    (hy : pyInt (pySlice f.name 3 7) = none) :
    ∃ e, namesPipeline files = .error e := by
  rcases readTagged_error_of_badYear f hy with ⟨e0, he0⟩
  rcases processFiles_error_of_mem files f e0 hf ht he0 with ⟨e, he⟩
  rw [namesPipeline, he]
  exact ⟨e, rfl⟩

/-- Witness for C5 at a concrete input: a file named `yobabcd.txt` aborts
the run. -/
theorem names_badFilename_fails_witness :
    ∃ e, namesPipeline [⟨"yobabcd.txt", "Ann,F,5"⟩] = .error e :=
  names_badFilename_fails [⟨"yobabcd.txt", "Ann,F,5"⟩] ⟨"yobabcd.txt", "Ann,F,5"⟩
    (by decide) (by decide) (by decide)

/-- Claim C6: on exactly the two files `yob2000.txt` (row `Mary,F,100`) and
`yob2001.txt` (row `John,M,50`) the pipeline writes a gzip-compressed CSV
with header `name,sex,births,year`, no index column, and exactly the two
rows with years 2000 and 2001 and births 100 and 50 preserved. -/
theorem names_end_to_end :
    namesPipeline [⟨"yob2000.txt", "Mary,F,100"⟩, ⟨"yob2001.txt", "John,M,50"⟩] =
      .ok ⟨["name,sex,births,year", "Mary,F,100,2000", "John,M,50,2001"], "gzip"⟩ := by
  decide

/-- Claim C9: on any filesystem holding the downloaded archive `names.zip`,
the scratch directory `data-us` and the written output `names.csv.gz`, the
cleanup cell succeeds, removes the archive and everything at or under the
scratch directory, and leaves the output file with its content untouched. -/
theorem cleanup_cell_effect (fs : FS) (zc dc oc : String)
    (hz : ("names.zip", zc) ∈ fs) (hd : ("data-us", dc) ∈ fs)
    (ho : ("names.csv.gz", oc) ∈ fs) :
    ∃ fs', cleanupCell fs = .ok fs'
      ∧ (∀ c, ("names.zip", c) ∉ fs')
      ∧ (∀ e ∈ fs', inDir "data-us" e.1 = false)
      ∧ ("names.csv.gz", oc) ∈ fs' := by
  rw [cleanupCell, osRemove]
  have h1 : ("names.zip", zc) ∈ List.filter (fun e => decide (e.1 = "names.zip")) fs :=
    List.mem_filter.mpr ⟨hz, by simp⟩
  rw [if_neg (by simpa using List.ne_nil_of_mem h1)]
  rw [okBind, rmtree]
  have hd1 : ("data-us", dc) ∈ List.filter (fun e => decide ¬ e.1 = "names.zip")
      fs := List.mem_filter.mpr ⟨hd, by simp⟩
  have hd2 : ("data-us", dc) ∈ List.filter (fun e => decide (e.1 = "data-us"))
      (List.filter (fun e => decide ¬ e.1 = "names.zip") fs) :=
    List.mem_filter.mpr ⟨hd1, by simp⟩
  rw [if_neg (by simpa using List.ne_nil_of_mem hd2)]
  refine ⟨_, rfl, ?_, ?_, ?_⟩
  · intro c hc
    have := (List.mem_filter.mp (List.mem_filter.mp hc).1).2
    simp at this
  · intro e he
    have h2 := (List.mem_filter.mp he).2
    simp only [decide_eq_true_eq] at h2
    exact Bool.eq_false_iff.mpr h2
  · exact List.mem_filter.mpr ⟨List.mem_filter.mpr ⟨ho, by simp⟩,
      by simp [show inDir "data-us" "names.csv.gz" = false from by decide]⟩

/-- Witness for C9 at a concrete three-entry filesystem. -/
theorem cleanup_cell_effect_witness :
    ∃ fs', cleanupCell
        [("names.zip", "zipbytes"), ("data-us", "dir"),
         ("data-us/yob2000.txt", "Mary,F,100"), ("names.csv.gz", "gz")] = .ok fs'
      ∧ (∀ c, ("names.zip", c) ∉ fs')
      ∧ (∀ e ∈ fs', inDir "data-us" e.1 = false)
      ∧ ("names.csv.gz", "gz") ∈ fs' :=
  cleanup_cell_effect
    [("names.zip", "zipbytes"), ("data-us", "dir"),
     ("data-us/yob2000.txt", "Mary,F,100"), ("names.csv.gz", "gz")]
    "zipbytes" "dir" "gz" (by decide) (by decide) (by decide)

/-! ## Lemmas about the life-table pipeline -/

theorem mapE_mem {α β : Type} (f : α → Except String β) (l : List α)
    (out : List β) (h : mapE f l = .ok out) :
    ∀ b ∈ out, ∃ a ∈ l, f a = .ok b := by
  induction l generalizing out with
  | nil => rw [mapE] at h; simp at h; subst h; simp
  | cons a t ih =>
    rw [mapE] at h
    cases hfa : f a with
    | error e => rw [hfa] at h; simp at h
    | ok b0 =>
      rw [hfa] at h
      cases ht : mapE f t with
      | error e => rw [ht] at h; simp at h
      | ok bs =>
        rw [ht] at h
        simp at h
        subst h
        intro b hb
        rcases List.mem_cons.mp hb with rfl | hb
        · exact ⟨a, List.mem_cons_self _ _, hfa⟩
        · rcases ih bs ht b hb with ⟨a', ha', hfa'⟩
          exact ⟨a', List.mem_cons_of_mem _ ha', hfa'⟩

theorem getD_mem_or {α : Type} (l : List α) (i : Nat) (d : α) :
    l.getD i d ∈ l ∨ l.getD i d = d := by
  induction l generalizing i with
  | nil => right; simp
  | cons a t ih =>
    cases i with
    | zero => left; simp
    | succ j =>
      rcases ih j with h | h
      · left; simp only [List.getD_cons_succ]; exact List.mem_cons_of_mem _ h
      · right; simpa using h

theorem setCells_length (c : String) (v : Option Val) (cs : List String)
    (r : List (Option Val)) : (setCells c v cs r).length = r.length := by
  induction cs generalizing r with
  | nil => cases r <;> simp [setCells]
  | cons c' cs ih =>
    cases r with
    | nil => simp [setCells]
    | cons x r => simp [setCells, ih]

theorem setCells_mem (c : String) (v : Option Val) (cs : List String)
    (r : List (Option Val)) : ∀ x ∈ setCells c v cs r, x = v ∨ x ∈ r := by
  induction cs generalizing r with
  | nil =>
    intro x hx
    cases r with
    | nil => simp [setCells] at hx
    | cons a t => right; simpa [setCells] using hx
  | cons c' cs ih =>
    cases r with
    | nil => simp [setCells]
    | cons x0 r =>
      intro x hx
      rw [setCells] at hx
      rcases List.mem_cons.mp hx with rfl | hx
      · split
        · left; rfl
        · right; exact List.mem_cons_self _ _
      · rcases ih r x hx with h | h
        · left; exact h
        · right; exact List.mem_cons_of_mem _ h

theorem padRow_length (w : Nat) (r out : List (Option Val))
    (h : padRow w r = .ok out) : out.length = w := by
  rw [padRow] at h
  split at h
  · simp at h
  · simp at h
    subst h
    simp
    omega

theorem padRow_mem (w : Nat) (r out : List (Option Val))
    (h : padRow w r = .ok out) : ∀ c ∈ out, c ∈ r ∨ c = none := by
  rw [padRow] at h
  split at h
  · simp at h
  · simp at h
    subst h
    intro c hc
    rcases List.mem_append.mp hc with hc | hc
    · left; exact hc
    · right; exact List.eq_of_mem_replicate hc

theorem parseCellLT_shape (x : String) (out : Option Val)
    (h : parseCellLT x = .ok out) :
    out = none ∨ ∃ q, out = some (.num q) := by
  rw [parseCellLT] at h
  split at h
  · simp at h; subst h; left; rfl
  · cases hq : pyFloat (cleanCell x) with
    | none => rw [hq] at h; simp at h
    | some q =>
      rw [hq] at h
      simp at h
      subst h
      right
      exact ⟨q, rfl⟩

theorem parseCellLT_error (x : String) (hx : x ≠ nbsp)
    (hq : pyFloat (cleanCell x) = none) :
    parseCellLT x = .error "ValueError: could not convert string to float" := by
  rw [parseCellLT, if_neg hx, hq]

theorem buildDF_spec (grid : List (List String)) (df : Frame)
    (h : buildDF grid = .ok df) :
    df.Rect ∧ df.rows.length = (grid.drop 4).length
    ∧ (∃ hdr, grid.get? 1 = some hdr ∧ df.cols = hdr.map stripHdr)
    ∧ df.CellsP (fun c => c = none ∨ ∃ q, c = some (.num q)) := by
  rw [buildDF] at h
  cases h1 : mapE (fun r => mapE parseCellLT r) (grid.drop 4) with
  | error e => rw [h1] at h; simp at h
  | ok raw =>
    rw [h1, okBind] at h
    cases h2 : headerOf grid with
    | error e => rw [h2] at h; simp at h
    | ok hdr =>
      rw [h2, okBind] at h
      cases h3 : mapE (padRow (hdr.map stripHdr).length) raw with
      | error e => rw [h3] at h; simp at h
      | ok rows =>
        rw [h3, okBind] at h
        simp at h
        subst h
        have hhdr : grid.get? 1 = some hdr := by
          rw [headerOf] at h2
          cases hg : grid.get? 1 with
          | none => rw [hg] at h2; simp at h2
          | some hdr0 => rw [hg] at h2; simp at h2; rw [h2]
        refine ⟨?_, ?_, ⟨hdr, hhdr, rfl⟩, ?_⟩
        · intro r hr
          rcases mapE_mem _ _ _ h3 r hr with ⟨r0, _, hpad⟩
          simpa [List.length_map] using padRow_length _ _ _ hpad
        · have e3 := mapE_ok_length _ _ _ h3
          have e1 := mapE_ok_length _ _ _ h1
          simpa [e3] using e1
        · intro r hr c hc
          rcases mapE_mem _ _ _ h3 r hr with ⟨r0, hr0, hpad⟩
          rcases padRow_mem _ _ _ hpad c hc with hcr | rfl
          · rcases mapE_mem _ _ _ h1 r0 hr0 with ⟨row, _, hrow⟩
            rcases mapE_mem _ _ _ hrow c hcr with ⟨x, _, hx⟩
            exact parseCellLT_shape x c hx
          · left; rfl

theorem setCol_cellsP (c : String) (v : Option Val) (fr : Frame)
    (P : Option Val → Prop) (hv : P v) (h : fr.CellsP P) :
    (setCol c v fr).CellsP P := by
  rw [setCol]
  split
  · intro r hr x hx
    rcases List.mem_map.mp hr with ⟨r0, hr0, rfl⟩
    rcases setCells_mem _ _ _ _ x hx with rfl | hx0
    · exact hv
    · exact h r0 hr0 x hx0
  · intro r hr x hx
    rcases List.mem_map.mp hr with ⟨r0, hr0, rfl⟩
    rcases List.mem_append.mp hx with hx0 | hx0
    · exact h r0 hr0 x hx0
    · rcases List.mem_singleton.mp hx0 with rfl
      exact hv

theorem setCol_rect (c : String) (v : Option Val) (fr : Frame)
    (h : fr.Rect) : (setCol c v fr).Rect := by
  rw [setCol]
  split
  · intro r hr
    rcases List.mem_map.mp hr with ⟨r0, hr0, rfl⟩
    simp [setCells_length, h r0 hr0]
  · intro r hr
    rcases List.mem_map.mp hr with ⟨r0, hr0, rfl⟩
    simp [h r0 hr0]

theorem dfMale_cellsP (df : Frame) (P : Option Val → Prop)
    (hM : P (some (.str "M"))) (h : df.CellsP P) : (dfMale df).CellsP P := by
  rw [dfMale]
  refine setCol_cellsP _ _ _ _ hM ?_
  intro r hr x hx
  rcases List.mem_map.mp hr with ⟨r0, hr0, rfl⟩
  exact h r0 hr0 x (List.mem_of_mem_take hx)

theorem dfFemale_cellsP (df : Frame) (P : Option Val → Prop)
    (hF : P (some (.str "F"))) (h : df.CellsP P) : (dfFemale df).CellsP P := by
  rw [dfFemale]
  refine setCol_cellsP _ _ _ _ hF ?_
  intro r hr x hx
  rcases List.mem_map.mp hr with ⟨r0, hr0, rfl⟩
  exact h r0 hr0 x (List.mem_of_mem_drop hx)

theorem reindexRow_cellsP (src tgt : List String) (r : List (Option Val))
    (P : Option Val → Prop) (hnone : P none) (h : ∀ c ∈ r, P c) :
    ∀ c ∈ reindexRow src tgt r, P c := by
  intro c hc
  rw [reindexRow] at hc
  rcases List.mem_map.mp hc with ⟨name, _, hval⟩
  cases hidx : src.indexOf? name with
  | none => rw [hidx] at hval; simp only [] at hval; exact hval ▸ hnone
  | some i =>
    rw [hidx] at hval
    simp only [] at hval
    rcases getD_mem_or r i none with hm | he
    · exact hval ▸ h _ hm
    · rw [he] at hval; exact hval ▸ hnone

theorem concatFrames_cellsP (a b : Frame) (P : Option Val → Prop)
    (hnone : P none) (ha : a.CellsP P) (hb : b.CellsP P) :
    (concatFrames a b).CellsP P := by
  rw [concatFrames]
  split
  · intro r hr
    rcases List.mem_append.mp hr with h | h
    · exact ha r h
    · exact hb r h
  · intro r hr x hx
    rcases List.mem_append.mp hr with h | h <;>
      rcases List.mem_map.mp h with ⟨r0, hr0, rfl⟩
    · exact reindexRow_cellsP _ _ _ _ hnone (ha r0 hr0) x hx
    · exact reindexRow_cellsP _ _ _ _ hnone (hb r0 hr0) x hx

theorem renameCol_cellsP (old new : String) (fr : Frame)
    (P : Option Val → Prop) (h : fr.CellsP P) : (renameCol old new fr).CellsP P := by
  intro r hr
  exact h r hr

theorem dropna_cellsP (fr : Frame) (P : Option Val → Prop)
    (h : fr.CellsP P) : (dropna fr).CellsP P := by
  intro r hr
  exact h r (List.mem_of_mem_filter hr)

theorem parse_lifetable_cellsP (grid : List (List String)) (y : Int)
    (ys : List Int) (fr : Frame) (hy : y ∈ ys)
    (h : parse_lifetable grid y = .ok fr) : fr.CellsP (YearsOnly ys) := by
  rw [parse_lifetable] at h
  cases hdf : buildDF grid with
  | error e => rw [hdf] at h; simp at h
  | ok df =>
    rw [hdf, okBind] at h
    simp at h
    subst h
    have hbase : df.CellsP (YearsOnly ys) := by
      intro r hr c hc z hz
      rcases (buildDF_spec grid df hdf).2.2.2 r hr c hc with rfl | ⟨q, rfl⟩ <;>
        simp at hz
    have hnone : YearsOnly ys none := by intro z hz; simp at hz
    refine dropna_cellsP _ _ (setCol_cellsP _ _ _ _ ?_ ?_)
    · intro z hz
      simp at hz
      exact hz ▸ hy
    · refine renameCol_cellsP _ _ _ _ ?_
      refine concatFrames_cellsP _ _ _ hnone ?_ ?_
      · exact dfMale_cellsP _ _ (by intro z hz; simp at hz) hbase
      · exact dfFemale_cellsP _ _ (by intro z hz; simp at hz) hbase

theorem concatFrames_rect (a b : Frame) (ha : a.Rect) (hb : b.Rect) :
    (concatFrames a b).Rect := by
  rw [concatFrames]
  split
  · rename_i hcols
    intro r hr
    rcases List.mem_append.mp hr with h | h
    · exact ha r h
    · rw [hcols]; exact hb r h
  · intro r hr
    rcases List.mem_append.mp hr with h | h <;>
      rcases List.mem_map.mp h with ⟨r0, hr0, rfl⟩ <;> simp [reindexRow]

theorem renameCol_rect (old new : String) (fr : Frame) (h : fr.Rect) :
    (renameCol old new fr).Rect := by
  intro r hr
  simpa [renameCol] using h r hr

theorem dropna_rect (fr : Frame) (h : fr.Rect) : (dropna fr).Rect := by
  intro r hr
  exact h r (List.mem_of_mem_filter hr)

theorem dfMale_rect (df : Frame) (h : df.Rect) : (dfMale df).Rect := by
  rw [dfMale]
  refine setCol_rect _ _ _ ?_
  intro r hr
  rcases List.mem_map.mp hr with ⟨r0, hr0, rfl⟩
  simp [h r0 hr0]

theorem dfFemale_rect (df : Frame) (h : df.Rect) : (dfFemale df).Rect := by
  rw [dfFemale]
  refine setCol_rect _ _ _ ?_
  intro r hr
  rcases List.mem_map.mp hr with ⟨r0, hr0, rfl⟩
  simp [h r0 hr0]

theorem parse_lifetable_eq (grid : List (List String)) (y : Int) (df : Frame)
    (hdf : buildDF grid = .ok df) :
    parse_lifetable grid y = .ok (dropna (setCol "year" (some (.int y))
      (renameCol "x" "age" (concatFrames (dfMale df) (dfFemale df))))) := by
  rw [parse_lifetable, hdf, okBind]

theorem parse_lifetable_ok_inv (grid : List (List String)) (y : Int)
    (fr : Frame) (h : parse_lifetable grid y = .ok fr) :
    ∃ df, buildDF grid = .ok df ∧ fr = dropna (setCol "year" (some (.int y))
      (renameCol "x" "age" (concatFrames (dfMale df) (dfFemale df)))) := by
  rw [parse_lifetable] at h
  cases hdf : buildDF grid with
  | error e => rw [hdf] at h; simp at h
  | ok df =>
    rw [hdf, okBind] at h
    simp at h
    exact ⟨df, rfl, h.symm⟩

theorem parse_lifetable_rect (grid : List (List String)) (y : Int)
    (fr : Frame) (h : parse_lifetable grid y = .ok fr) : fr.Rect := by
  rcases parse_lifetable_ok_inv grid y fr h with ⟨df, hdf, rfl⟩
  have hrect := (buildDF_spec grid df hdf).1
  exact dropna_rect _ (setCol_rect _ _ _ (renameCol_rect _ _ _
    (concatFrames_rect _ _ (dfMale_rect _ hrect) (dfFemale_rect _ hrect))))

theorem dropna_isSome (fr : Frame) :
    ∀ r ∈ (dropna fr).rows, ∀ c ∈ r, c.isSome = true := by
  intro r hr
  have h := List.of_mem_filter hr
  simpa [List.all_eq_true] using h

theorem buildDF_error_of_badCell (grid : List (List String))
    (row : List String) (x : String)
    (hrow : row ∈ grid.drop 4) (hx : x ∈ row) (hxne : x ≠ nbsp)
    (hq : pyFloat (cleanCell x) = none) : ∃ e, buildDF grid = .error e := by
  rcases mapE_error_of_mem parseCellLT row x _ hx (parseCellLT_error x hxne hq)
    with ⟨e1, he1⟩
  rcases mapE_error_of_mem (fun r => mapE parseCellLT r) (grid.drop 4) row e1
    hrow he1 with ⟨e2, he2⟩
  rw [buildDF, he2]
  exact ⟨e2, rfl⟩

theorem foldl_concatFrames_cellsP (P : Option Val → Prop) (hnone : P none)
    (f0 : Frame) (fs : List Frame) (h0 : f0.CellsP P)
    (hall : ∀ fr ∈ fs, fr.CellsP P) : (fs.foldl concatFrames f0).CellsP P := by
  induction fs generalizing f0 with
  | nil => simpa using h0
  | cons g gs ih =>
    rw [List.foldl_cons]
    exact ih _ (concatFrames_cellsP _ _ _ hnone h0 (hall g (List.mem_cons_self _ _)))
      (fun fr hfr => hall fr (List.mem_cons_of_mem _ hfr))

/-- Claim C3: in `parse_lifetable`, a data cell holding the non-breaking
space becomes a null instead of a parse error; every row of the returned
frame has a non-null value in every column (one cell per column, all
non-null); and a data cell other than the placeholder that does not parse
as a float aborts the whole parse with an error. -/
theorem lifetable_missing_cell (grid : List (List String)) (y : Int) (fr : Frame) :
    parseCellLT nbsp = .ok none
    ∧ (parse_lifetable grid y = .ok fr →
        ∀ row ∈ fr.rows, row.length = fr.cols.length ∧ ∀ c ∈ row, c.isSome = true)
    ∧ (∀ row ∈ grid.drop 4, ∀ x ∈ row, x ≠ nbsp → pyFloat (cleanCell x) = none →
        ∃ e, parse_lifetable grid y = .error e) := by
  refine ⟨by rw [parseCellLT, if_pos rfl], ?_, ?_⟩
  · intro hok row hrow
    refine ⟨parse_lifetable_rect grid y fr hok row hrow, ?_⟩
    rcases parse_lifetable_ok_inv grid y fr hok with ⟨df, _, rfl⟩
    exact dropna_isSome _ row hrow
  · intro row hrow x hx hxne hq
    rcases buildDF_error_of_badCell grid row x hrow hx hxne hq with ⟨e, he⟩
    rw [parse_lifetable, he]
    exact ⟨e, rfl⟩

/-- Witness for C3 at concrete inputs: the placeholder cell parses to a
null, the bad grid aborts with an error, and the parsed good frame has
full non-null rows. -/
theorem lifetable_missing_cell_witness :
    parseCellLT nbsp = .ok none
    ∧ (∃ e, parse_lifetable gridBad 1950 = .error e)
    ∧ (∀ row ∈ (frGood 1900).rows,
        row.length = (frGood 1900).cols.length ∧ ∀ c ∈ row, c.isSome = true) := by
  refine ⟨(lifetable_missing_cell [] 0 (frGood 1900)).1, ?_, ?_⟩
  · exact (lifetable_missing_cell gridBad 1950 (frGood 1900)).2.2
      badRowG (by decide) "oops" (by decide) (by decide) (by decide)
  · exact fun row hrow =>
      (lifetable_missing_cell gridGood 1900 (frGood 1900)).2.1 (by decide) row hrow

/-- Claim C4: `parse_lifetable` builds the male sub-table from columns 0
to 6 tagged `sex = 'M'`, the female sub-table from columns 8 onward tagged
`sex = 'F'` (column 7 is discarded), the two sub-tables have identical row
counts before null-row dropping, and the parse result is exactly their
concatenation after the renames, the year tag and the null-row drop. -/
theorem lifetable_sex_split (grid : List (List String)) (y : Int)
    (df fr : Frame) (hdf : buildDF grid = .ok df) (hsex : "sex" ∉ df.cols) :
    (dfMale df).cols = df.cols.take 7 ++ ["sex"]
    ∧ (dfFemale df).cols = df.cols.drop 8 ++ ["sex"]
    ∧ (dfMale df).rows = df.rows.map (fun r => r.take 7 ++ [some (.str "M")])
    ∧ (dfFemale df).rows = df.rows.map (fun r => r.drop 8 ++ [some (.str "F")])
    ∧ (dfMale df).rows.length = (dfFemale df).rows.length
    ∧ (parse_lifetable grid y = .ok fr →
        fr = dropna (setCol "year" (some (.int y))
          (renameCol "x" "age" (concatFrames (dfMale df) (dfFemale df))))) := by
  have hm : "sex" ∉ List.take 7 df.cols := fun hc => hsex (List.mem_of_mem_take hc)
  have hf : "sex" ∉ List.drop 8 df.cols := fun hc => hsex (List.mem_of_mem_drop hc)
  refine ⟨?_, ?_, ?_, ?_, ?_, ?_⟩
  · rw [dfMale, setCol]
    simp [hm]
  · rw [dfFemale, setCol]
    simp [hf]
  · rw [dfMale, setCol]
    simp [hm, List.map_map, Function.comp_def]
  · rw [dfFemale, setCol]
    simp [hf, List.map_map, Function.comp_def]
  · rw [dfMale, dfFemale, setCol, setCol]
    simp [hm, hf]
  · intro hok
    rcases parse_lifetable_ok_inv grid y fr hok with ⟨df', hdf', rfl⟩
    rw [hdf] at hdf'
    cases hdf'
    rfl

/-- Witness for C4 at the concrete sample grid: equal sub-table row counts
and the stated male column layout. -/
theorem lifetable_sex_split_witness :
    (dfMale dfGood).rows.length = (dfFemale dfGood).rows.length
    ∧ (dfMale dfGood).cols = dfGood.cols.take 7 ++ ["sex"] := by
  have h := lifetable_sex_split gridGood 1900 dfGood (frGood 1900)
    (by decide) (by decide)
  exact ⟨h.2.2.2.2.1, h.1⟩

/-- Claim C7: `get_lifetables` walks exactly the decade stride 1900, 1910,
…, 2090 in order, so every year tag in the combined life-table output (the
only integer cells the pipeline creates) lies in that stride. -/
theorem lifetables_years_stride (fetch : Int → List (List String)) (lt : Frame)
    (h : get_lifetables fetch = .ok lt) :
    strideYears = [1900, 1910, 1920, 1930, 1940, 1950, 1960, 1970, 1980, 1990,
      2000, 2010, 2020, 2030, 2040, 2050, 2060, 2070, 2080, 2090]
    ∧ ∀ row ∈ lt.rows, ∀ c ∈ row, ∀ z : Int,
        c = some (.int z) → z ∈ strideYears := by
  refine ⟨by decide, ?_⟩
  rw [get_lifetables] at h
  cases hm : mapE (fun y => parse_lifetable (fetch y) y) strideYears with
  | error e => rw [hm] at h; simp at h
  | ok frames =>
    rw [hm, okBind] at h
    cases frames with
    | nil => rw [concatAll] at h; simp at h
    | cons f0 fs =>
      rw [concatAll, okBind] at h
      simp at h
      have hall : ∀ fr ∈ f0 :: fs, fr.CellsP (YearsOnly strideYears) := by
        intro fr hfr
        rcases mapE_mem _ _ _ hm fr hfr with ⟨yv, hyv, hparse⟩
        exact parse_lifetable_cellsP _ yv _ fr hyv hparse
      have hfold : (fs.foldl concatFrames f0).CellsP (YearsOnly strideYears) :=
        foldl_concatFrames_cellsP _ (by intro z hz; simp at hz) f0 fs
          (hall f0 (List.mem_cons_self _ _))
          (fun fr hfr => hall fr (List.mem_cons_of_mem _ hfr))
      intro row hrow c hc z hz
      rw [← h] at hrow
      exact renameCol_cellsP "" "ex" _ _ hfold row hrow c hc z hz

/-- Witness for C7: with the sample grid fetched for every year, the male
row of 1900 is in the output and its year tag is in the stride. -/
theorem lifetables_years_stride_witness : (1900 : Int) ∈ strideYears :=
  (lifetables_years_stride (fun _ => gridGood) ltGood (by decide)).2
    (mRowG 1900) (by decide) (some (.int 1900)) (by decide) 1900 rfl

/-- Claim C8: `parse_lifetable` takes its column names from grid row index
1 with whitespace stripped, its data rows from grid row index 4 onward,
renames column `x` to `age`, and `get_lifetables` renames the blank-named
column of the combined result to `ex`. -/
theorem lifetable_grid_offsets (grid : List (List String)) (y : Int)
    (df : Frame) (fetch : Int → List (List String)) (lt : Frame) :
    (buildDF grid = .ok df →
      (∃ hdr, grid.get? 1 = some hdr ∧ df.cols = hdr.map stripHdr)
      ∧ df.rows.length = (grid.drop 4).length
      ∧ parse_lifetable grid y = .ok (dropna (setCol "year" (some (.int y))
          (renameCol "x" "age" (concatFrames (dfMale df) (dfFemale df))))))
    ∧ (get_lifetables fetch = .ok lt →
        ∃ f0 fs, mapE (fun yr => parse_lifetable (fetch yr) yr) strideYears
            = .ok (f0 :: fs)
          ∧ lt = renameCol "" "ex" (fs.foldl concatFrames f0)) := by
  constructor
  · intro hdf
    have hs := buildDF_spec grid df hdf
    exact ⟨hs.2.2.1, hs.2.1, parse_lifetable_eq grid y df hdf⟩
  · intro h
    rw [get_lifetables] at h
    cases hm : mapE (fun yr => parse_lifetable (fetch yr) yr) strideYears with
    | error e => rw [hm] at h; simp at h
    | ok frames =>
      rw [hm, okBind] at h
      cases frames with
      | nil => rw [concatAll] at h; simp at h
      | cons f0 fs =>
        rw [concatAll, okBind] at h
        simp at h
        exact ⟨f0, fs, rfl, h.symm⟩

/-- Witness for C8 at the concrete sample grid: column names come from the
stripped header row and there is exactly one data row; the combined output
is the `ex`-renamed fold of the per-year frames. -/
theorem lifetable_grid_offsets_witness :
    ((∃ hdr, gridGood.get? 1 = some hdr ∧ dfGood.cols = hdr.map stripHdr)
      ∧ dfGood.rows.length = (gridGood.drop 4).length)
    ∧ ∃ f0 fs, mapE (fun yr => parse_lifetable ((fun _ => gridGood) yr) yr)
          strideYears = .ok (f0 :: fs)
        ∧ ltGood = renameCol "" "ex" (fs.foldl concatFrames f0) := by
  have h := lifetable_grid_offsets gridGood 1900 dfGood (fun _ => gridGood) ltGood
  have h1 := h.1 (by decide)
  exact ⟨⟨h1.1, h1.2.1⟩, h.2 (by decide)⟩

/-- Claim C10: the life-table cell references `requests`, `BeautifulSoup`,
`Extractor` and `re`, none of which the notebook imports or defines, so
every invocation of `get_lifetables` raises a `NameError` on `requests`
before any table is produced, and `lifetables.csv` is never written. -/
theorem lifetable_missing_imports :
    runGetLifetables = .error (.nameError "requests")
    ∧ resolves "requests" = false ∧ resolves "BeautifulSoup" = false
    ∧ resolves "Extractor" = false ∧ resolves "re" = false
    ∧ lifetableRunWrites = [] := by
  decide

end Datacamp
